import Mathlib

/-!
Shallow embedding of the output-verification engine of `tools/run_tests.py`
(lab-assignment test harness).  Strings are modelled as `List Char`; Python
floats are modelled exactly as rationals (`ℚ`); a Python `dict` keyed by
`int` is modelled as an association list with overwrite-on-insert; code that
can raise an exception is modelled in `Except`.
-/

/-- Character list of a string literal (Python `str` values are modelled as
`List Char`). -/
def chars (s : String) : List Char := s.data

/-- Python `\s` / `str.strip` whitespace over the ASCII range (the regexes and
strips in the source only meet ASCII whitespace in practice). -/
def pyIsSpace (c : Char) : Bool :=
  c = ' ' || c = '\t' || c = '\n' || c = '\r' || c = '\x0b' || c = '\x0c'

/-- Python `str.strip()`: drop whitespace from both ends. -/
def pyStrip (s : List Char) : List Char :=
  ((s.dropWhile pyIsSpace).reverse.dropWhile pyIsSpace).reverse

/-- `startsWith hay pat` is true when `pat` is a prefix of `hay`. -/
def startsWith : List Char → List Char → Bool
  | _, [] => true
  | [], _ :: _ => false
  | c :: t, p :: ps => decide (c = p) && startsWith t ps

/-- Substring containment, the Python `pat in hay` test on strings. -/
def containsSub : List Char → List Char → Bool
  | [], pat => startsWith [] pat
  | c :: t, pat => startsWith (c :: t) pat || containsSub t pat

/-- Python `value.replace(old, new)` for single-character `old`/`new`
(each `str.replace` call in `normalize_text` replaces one character). -/
def replaceChar (old new : Char) (s : List Char) : List Char :=
  s.map fun c => if c = old then new else c

/-- `normalize_text` from the source: replace en dash (U+2013), em dash
(U+2014) and minus sign (U+2212) by the ASCII dash, in that order. -/
def normalize_text (s : List Char) : List Char :=
  replaceChar '−' '-' (replaceChar '—' '-' (replaceChar '–' '-' s))

/-- A missing-expectation descriptor.  The Python code records formatted
strings (the item itself, `regex:{pattern}`, `solution:not_found`,
`solution:x{key}:not_found`, `solution:x{key}:expected≈{value}`); each is
determined by the constructor data below, which is what we model. -/
inductive Missing where
  | contains (item : List Char)
  | regex (pat : List Char)
  | solutionNotFound
  | solutionKeyNotFound (key : Nat)
  | solutionMismatch (key : Nat) (expected : ℚ)
deriving DecidableEq, Repr

/-- `check_contains` from the source: normalize both the output and each
expected item, and record every expected item that is not a substring of the
output (the original, unnormalized item is recorded). -/
def check_contains (stdout : List Char) (expected : List (List Char)) : List Missing :=
  expected.filterMap fun item =>
    if containsSub (normalize_text stdout) (normalize_text item) then none
    else some (.contains item)

/-- Python `re.search(pat, s)` restricted to patterns that contain no regex
metacharacters, where a search succeeds exactly when the pattern occurs in
`s` as a literal substring.  All regex patterns handled by the theorems
below are of this literal shape. -/
def re_search_lit (pat s : List Char) : Bool := containsSub s pat

/-- `check_regex` from the source: the output is normalized, the pattern is
searched as-is (the pattern itself is NOT normalized), and unmatched
patterns are recorded. -/
def check_regex (stdout : List Char) (patterns : List (List Char)) : List Missing :=
  patterns.filterMap fun pat =>
    if re_search_lit pat (normalize_text stdout) then none
    else some (.regex pat)

-- ### Dash-variant relation (for the C4 statements)

/-- `dash_variant_char c d`: `d` equals `c`, or `c` is the canonical dash and
`d` is one of the three typographic dash characters normalized by
`normalize_text`. -/
def dash_variant_char (c d : Char) : Bool :=
  decide (d = c) ||
    (decide (c = '-') && (decide (d = '–') || decide (d = '—') || decide (d = '−')))

/-- `dash_variant a b`: `b` differs from `a` only by replacing canonical
dashes with typographic dash characters, position by position. -/
def dash_variant : List Char → List Char → Bool
  | [], [] => true
  | c :: cs, d :: ds => dash_variant_char c d && dash_variant cs ds
  | _, _ => false

/-- The single-character action of `normalize_text`. -/
def normChar (c : Char) : Char :=
  if (if (if c = '–' then '-' else c) = '—' then '-'
      else (if c = '–' then '-' else c)) = '−' then '-'
  else (if (if c = '–' then '-' else c) = '—' then '-'
        else (if c = '–' then '-' else c))

-- ### Numeric literal scanning (the regexes of `extract_solution` and
-- `parse_input_tolerance`)

/-- Digits taken greedily from the front (the `\d+`/`\d*` behaviour). -/
def takeDigits : List Char → List Char × List Char
  | [] => ([], [])
  | c :: t =>
    if c.isDigit then
      let p := takeDigits t
      (c :: p.1, p.2)
    else ([], c :: t)

/-- Decimal digit string to natural number. -/
def digitsToNat (ds : List Char) : Nat :=
  ds.foldl (fun a c => 10 * a + (c.toNat - 48)) 0

/-- Rational multiplication through `mkRat` (definitionally computable by
the kernel; `Rat.mul` itself is irreducible).  `qmul_eq_mul` below shows it
is ordinary multiplication on `ℚ`. -/
def qmul (a b : ℚ) : ℚ := mkRat (a.num * b.num) (a.den * b.den)

/-- Rational subtraction through `mkRat`; `qsub_eq_sub` below shows it is
ordinary subtraction on `ℚ`. -/
def qsub (a b : ℚ) : ℚ := mkRat (a.num * b.den - b.num * a.den) (a.den * b.den)

/-- Rational absolute value; `qabs_eq_abs` below shows it is `|·|` on `ℚ`. -/
def qabs (a : ℚ) : ℚ := if a.num < 0 then Rat.neg a else a

/-- Exact rational value of a matched numeric literal with sign, integer
digits, fraction digits, exponent sign and exponent digits (Python converts
the match with `float`; we model the literal's value exactly in `ℚ`). -/
def numVal (neg : Bool) (ip fp : List Char) (eneg : Bool) (ed : List Char) : ℚ :=
  let m : Nat := digitsToNat (ip ++ fp)
  let e : Nat := digitsToNat ed
  let n : Int := if neg then -(m : Int) else (m : Int)
  if eneg then mkRat n (10 ^ (fp.length + e))
  else mkRat (n * 10 ^ e) (10 ^ fp.length)

/-- The optional exponent group `(?:e[+-]?\d+)?` (case-insensitive): returns
exponent sign, exponent digits, and the remaining input; if the group cannot
match it consumes nothing. -/
def matchExp (cs : List Char) : Bool × List Char × List Char :=
  match cs with
  | c :: t =>
    if c = 'e' || c = 'E' then
      let st : Bool × List Char :=
        match t with
        | '+' :: u => (false, u)
        | '-' :: u => (true, u)
        | u => (false, u)
      match takeDigits st.2 with
      | ([], _) => (false, [], cs)
      | (ds, r) => (st.1, ds, r)
    else (false, [], cs)
  | [] => (false, [], [])

/-- Match of `[+-]?\d+(?:\.\d+)?(?:e[+-]?\d+)?` (case-insensitive) at the
head of the input: value and remaining input after the match. -/
def matchNum (cs : List Char) : Option (ℚ × List Char) :=
  let sg : Bool × List Char :=
    match cs with
    | '+' :: t => (false, t)
    | '-' :: t => (true, t)
    | t => (false, t)
  match takeDigits sg.2 with
  | ([], _) => none
  | (ip, r1) =>
    let fr : List Char × List Char :=
      match r1 with
      | '.' :: t =>
        match takeDigits t with
        | ([], _) => ([], r1)
        | (ds, r) => (ds, r)
      | _ => ([], r1)
    let ex := matchExp fr.2
    some (numVal sg.1 ip fr.1 ex.1 ex.2.1, ex.2.2)

/-- `\s*`: drop leading whitespace. -/
def skipWs (cs : List Char) : List Char := cs.dropWhile pyIsSpace

/-- Match of the bracketed shape
`x\s*\[\s*(\d+)\s*\]\s*=\s*NUM` (case-insensitive) at the head of the
input: index, value and remaining input. -/
def matchBracketed (cs : List Char) : Option ((Nat × ℚ) × List Char) :=
  match cs with
  | c :: t =>
    if c = 'x' || c = 'X' then
      match skipWs t with
      | '[' :: t2 =>
        match takeDigits (skipWs t2) with
        | ([], _) => none
        | (ds, t4) =>
          match skipWs t4 with
          | ']' :: t6 =>
            match skipWs t6 with
            | '=' :: t8 =>
              match matchNum (skipWs t8) with
              | some (v, r) => some ((digitsToNat ds, v), r)
              | none => none
            | _ => none
          | _ => none
      | _ => none
    else none
  | [] => none

/-- Match of the juxtaposed shape `x\s*(\d+)\s*=\s*NUM` (case-insensitive)
at the head of the input. -/
def matchJuxt (cs : List Char) : Option ((Nat × ℚ) × List Char) :=
  match cs with
  | c :: t =>
    if c = 'x' || c = 'X' then
      match takeDigits (skipWs t) with
      | ([], _) => none
      | (ds, t2) =>
        match skipWs t2 with
        | '=' :: t4 =>
          match matchNum (skipWs t4) with
          | some (v, r) => some ((digitsToNat ds, v), r)
          | none => none
        | _ => none
    else none
  | [] => none

/-- `re.finditer` driver: scan left to right, emit each non-overlapping
leftmost match and continue after its end, otherwise advance one character.
The fuel argument (instantiated with `length + 1`) only bounds the
recursion; every iteration consumes at least one character. -/
def scanWith {α : Type} (m : List Char → Option (α × List Char)) : Nat → List Char → List α
  | 0, _ => []
  | _ + 1, [] => []
  | fuel + 1, c :: rest =>
    match m (c :: rest) with
    | some p => p.1 :: scanWith m fuel p.2
    | none => scanWith m fuel rest

/-- All bracketed-shape matches of the output text, in order. -/
def bracketed_matches (s : List Char) : List (Nat × ℚ) :=
  scanWith matchBracketed (s.length + 1) s

/-- All juxtaposed-shape matches of the output text, in order. -/
def juxt_matches (s : List Char) : List (Nat × ℚ) :=
  scanWith matchJuxt (s.length + 1) s

/-- `re.findall` of the bare numeric-literal regex over the input text
(used by `parse_input_tolerance`). -/
def findall_num (s : List Char) : List ℚ :=
  scanWith matchNum (s.length + 1) s

-- ### Python dict keyed by int, as an association list

/-- Python `d[k] = v`: overwrite if present, else append. -/
def dictInsert (k : Nat) (v : ℚ) : List (Nat × ℚ) → List (Nat × ℚ)
  | [] => [(k, v)]
  | (k1, v1) :: t => if k1 = k then (k, v) :: t else (k1, v1) :: dictInsert k v t

/-- Python `d.get(k)` / `k in d`. -/
def dictLookup (k : Nat) : List (Nat × ℚ) → Option ℚ
  | [] => none
  | (k1, v1) :: t => if k1 = k then some v1 else dictLookup k t

/-- The dictionary after the first (bracketed) pass of `extract_solution`:
each bracketed match is written unconditionally. -/
def bracketedDict (s : List Char) : List (Nat × ℚ) :=
  (bracketed_matches s).foldl (fun d p => dictInsert p.1 p.2 d) []

/-- `extract_solution` from the source: bracketed pass writes
unconditionally, juxtaposed pass writes only indices not already present. -/
def extract_solution (stdout : List Char) : List (Nat × ℚ) :=
  (juxt_matches stdout).foldl
    (fun d p => if (dictLookup p.1 d).isSome then d else dictInsert p.1 p.2 d)
    (bracketedDict stdout)

-- ### check_solution

/-- The `for i, expected_value in enumerate(expected)` loop body of
`check_solution`, with `i` the running position. -/
def solLoop (found : List (Nat × ℚ)) (tol : ℚ) (zb : Bool) : Nat → List ℚ → List Missing
  | _, [] => []
  | i, ev :: rest =>
    let key := if zb then i else i + 1
    match dictLookup key found with
    | none => .solutionKeyNotFound key :: solLoop found tol zb (i + 1) rest
    | some a =>
      if qabs (qsub a ev) > tol then .solutionMismatch key ev :: solLoop found tol zb (i + 1) rest
      else solLoop found tol zb (i + 1) rest

/-- `check_solution` on an already-extracted mapping: empty mapping is
reported as a single not-found marker; otherwise the indexing scheme is
0-based exactly when key 0 is present, and each expected position is
checked at its mapped key. -/
def check_solution_found (found : List (Nat × ℚ)) (expected : List ℚ) (tol : ℚ) : List Missing :=
  if found = [] then [.solutionNotFound]
  else solLoop found tol ((dictLookup 0 found).isSome) 0 expected

/-- `check_solution` from the source. -/
def check_solution (stdout : List Char) (expected : List ℚ) (tol : ℚ) : List Missing :=
  check_solution_found (extract_solution stdout) expected tol

/-- `parse_input_tolerance` from the source: last numeric literal of the
input text times 3, or the default.  (The `except ValueError` branch of the
source is unreachable: every match of the literal regex is a valid float.) -/
def parse_input_tolerance (input_text : List Char) (default_tol : ℚ) : ℚ :=
  match (findall_num input_text).getLast? with
  | none => default_tol
  | some v => qmul v 3

-- ### Manifest values (the shapes `get_variant_selector` can meet)

/-- A primitive manifest value: a JSON string, number, or null (Python
`None`).  Numbers are modelled as integers, which is enough to distinguish
the `isinstance(first, str)` branches of `get_variant_selector`. -/
inductive JPrim where
  | str (s : List Char)
  | num (n : Int)
  | null
deriving DecidableEq, Repr

/-- The raw (pre-resolution) shape of a variant's `out_contains` field:
absent, a single string, or a list of primitive values. -/
inductive RawExpect where
  | absent
  | ofStr (s : List Char)
  | ofList (xs : List JPrim)
deriving DecidableEq, Repr

/-- Decimal rendering of a natural number (helper for Python `str`);
the fuel argument only bounds the recursion. -/
def natCharsAux : Nat → Nat → List Char → List Char
  | 0, _, acc => acc
  | fuel + 1, n, acc =>
    let c := Char.ofNat (48 + n % 10)
    if n < 10 then c :: acc
    else natCharsAux fuel (n / 10) (c :: acc)

/-- Decimal rendering of a natural number. -/
def natChars (n : Nat) : List Char := natCharsAux (n + 1) n []

/-- Decimal rendering of an integer, Python style. -/
def intChars : Int → List Char
  | .ofNat n => natChars n
  | .negSucc n => '-' :: natChars (n + 1)

/-- Python `str(...)` on a primitive manifest value. -/
def pyStr : JPrim → List Char
  | .str s => s
  | .num n => intChars n
  | .null => chars "None"

-- ### Variants and test cases

/-- One variant, as the orchestrator hands it to `get_variant_selector`
and (after resolving `out_contains`/`out_regex` through
`normalize_expected`, an external file-reading step modelled here by the
already-resolved string lists) to `evaluate_variant`.  `main` builds the
dict for `evaluate_variant` with every key present, absent manifest fields
becoming Python `None` — modelled as `none`. -/
structure Variant where
  selector : Option JPrim
  out_contains_raw : RawExpect
  out_contains : List (List Char)
  out_regex : List (List Char)
  expected_solution : Option (List ℚ)
  solution_tolerance : Option ℚ
  use_input_tolerance : Bool
  tolerance_scale : Option ℚ
deriving DecidableEq, Repr

/-- One test case with resolved direct expectations and raw variants. -/
structure TestSpec where
  out_contains : List (List Char)
  out_regex : List (List Char)
  expected_solution : Option (List ℚ)
  solution_tolerance : Option ℚ
  use_input_tolerance : Bool
  tolerance_scale : Option ℚ
  variants : List Variant
deriving DecidableEq, Repr

/-- The `out_contains` fallback of `get_variant_selector`: a non-empty list
uses its first entry (`first.strip()` when it is a string, `str(first)`
otherwise); a plain non-blank string is used stripped; anything else gives
the empty selector. -/
def selector_from_out_contains : RawExpect → List Char
  | .ofList (first :: _) =>
    match first with
    | .str s => pyStrip s
    | j => pyStr j
  | .ofList [] => []
  | .ofStr s => if (pyStrip s).isEmpty then [] else pyStrip s
  | .absent => []

/-- `get_variant_selector` from the source: a declared non-blank string
selector wins, else fall back to the `out_contains` field. -/
def get_variant_selector (v : Variant) : List Char :=
  match v.selector with
  | some (.str s) => if (pyStrip s).isEmpty then selector_from_out_contains v.out_contains_raw
                     else pyStrip s
  | _ => selector_from_out_contains v.out_contains_raw

-- ### First output line and variant selection

/-- Python `str.splitlines` restricted to the terminators `\n`, `\r` and
`\r\n` (the ones a decoded program output can contain here); the fuel
argument only bounds the recursion. -/
def splitLinesAux : Nat → List Char → List Char → List (List Char)
  | 0, acc, _ => [acc.reverse]
  | _ + 1, acc, [] => [acc.reverse]
  | fuel + 1, acc, '\r' :: '\n' :: rest =>
    acc.reverse :: (match rest with | [] => [] | r => splitLinesAux fuel [] r)
  | fuel + 1, acc, '\n' :: rest =>
    acc.reverse :: (match rest with | [] => [] | r => splitLinesAux fuel [] r)
  | fuel + 1, acc, '\r' :: rest =>
    acc.reverse :: (match rest with | [] => [] | r => splitLinesAux fuel [] r)
  | fuel + 1, acc, c :: rest => splitLinesAux fuel (c :: acc) rest

/-- Python `str.splitlines` (empty string gives no lines; a trailing
terminator does not open a final empty line). -/
def splitLines : List Char → List (List Char)
  | [] => []
  | s => splitLinesAux (s.length + 1) [] s

/-- `extract_first_line` from the source: the first line that is non-blank
after stripping, stripped; the empty string when there is none. -/
def extract_first_line (output_text : List Char) : List Char :=
  (((splitLines output_text).map pyStrip).filter (fun l => !l.isEmpty)).headD []

/-- The variant-selection loop of `main`: the first variant whose non-empty
selector occurs (after dash normalization of both the selector and the
first line) inside the first non-blank output line. -/
def select_variant (variants : List Variant) (first_line : List Char) : Option Variant :=
  variants.find? fun v =>
    let sel := get_variant_selector v
    !sel.isEmpty && containsSub (normalize_text first_line) (normalize_text sel)

-- ### Tolerances

/-- The scale factor `float(variant.get("tolerance_scale") or 1.0)`:
Python `or` replaces both a missing value and a falsy `0.0` by `1.0`. -/
def truthy_scale : Option ℚ → ℚ
  | none => 1
  | some q => if q = 0 then 1 else q

/-- The tolerance computation of `evaluate_variant` as invoked from `main`,
where the dict always carries a `solution_tolerance` key (with Python
`None` when the manifest does not declare one).  In fixed mode
`float(variant.get("solution_tolerance", default_tol))` then reads that
`None` — the declared-key default never applies — and `float(None)` raises
`TypeError`, modelled as `Except.error`. -/
def variant_tol (v : Variant) (input_text : List Char) (default_tol : ℚ) : Except Unit ℚ :=
  if v.use_input_tolerance then
    .ok (qmul (parse_input_tolerance input_text default_tol) (truthy_scale v.tolerance_scale))
  else
    match v.solution_tolerance with
    | some t => .ok t
    | none => .error ()

/-- The tolerance computation of the direct (no-variants) branch of `main`:
here the dict keys can be genuinely absent, so `.get` defaults apply. -/
def direct_tol (t : TestSpec) (input_text : List Char) (default_tol : ℚ) : ℚ :=
  if t.use_input_tolerance then
    qmul (parse_input_tolerance input_text default_tol) (t.tolerance_scale.getD 1)
  else
    t.solution_tolerance.getD default_tol

-- ### evaluate_variant and the variant loop of main

/-- `evaluate_variant` from the source, as invoked from `main`: containment
and regex mismatches are collected, then, when an expected solution is
declared, the tolerance is computed (possibly raising, see `variant_tol`)
and the solution check appended; returns (passed, missing). -/
def evaluate_variant (out : List Char) (v : Variant) (input_text : List Char)
    (default_tol : ℚ) : Except Unit (Bool × List Missing) :=
  let m1 := check_contains out v.out_contains ++ check_regex out v.out_regex
  match v.expected_solution with
  | none => .ok (m1.isEmpty, m1)
  | some sol =>
    match variant_tol v input_text default_tol with
    | .error e => .error e
    | .ok tol =>
      let m := m1 ++ check_solution out sol tol
      .ok (m.isEmpty, m)

/-- The fallback variant loop of `main` (no variant pre-selected): evaluate
in declared order, stop at the first pass, keep the last attempted
variant's missing list when none passes; an exception escapes. -/
def variant_loop (out input_text : List Char) (default_tol : ℚ) :
    List Variant → Except Unit (Bool × List Missing)
  | [] => .ok (false, [])
  | v :: rest =>
    match evaluate_variant out v input_text default_tol with
    | .error e => .error e
    | .ok (true, m) => .ok (true, m)
    | .ok (false, m) =>
      match rest with
      | [] => .ok (false, m)
      | _ :: _ => variant_loop out input_text default_tol rest

/-- The variant handling of `main`: with selection-by-output enabled and a
variant selected by the first output line, only that variant is evaluated
(the loop breaks after it whether or not it passes); otherwise the fallback
loop runs over all variants. -/
def run_variants (out input_text : List Char) (default_tol : ℚ) (sel_mode : Bool)
    (variants : List Variant) : Except Unit (Bool × List Missing) :=
  match (if sel_mode then select_variant variants (extract_first_line out) else none) with
  | some v => evaluate_variant out v input_text default_tol
  | none => variant_loop out input_text default_tol variants

/-- The per-test evaluation of `main` after the program ran: a non-empty
`variants` list (Python truthiness of `test.get("variants")`) routes to the
variant handling, otherwise the test case's direct expectations are
checked. -/
def evaluate_test (out input_text : List Char) (default_tol : ℚ) (sel_mode : Bool)
    (t : TestSpec) : Except Unit (Bool × List Missing) :=
  match t.variants with
  | _ :: _ => run_variants out input_text default_tol sel_mode t.variants
  | [] =>
    let m := check_contains out t.out_contains ++ check_regex out t.out_regex ++
      (match t.expected_solution with
       | none => []
       | some sol => check_solution out sol (direct_tol t input_text default_tol))
    .ok (m.isEmpty, m)

-- ### Program runner and orchestrator loop

/-- `output_text` as assembled in `main`:
`f"{stdout}\n{stderr}" if stderr else stdout`. -/
def output_text (stdout stderr : List Char) : List Char :=
  if stderr.isEmpty then stdout else stdout ++ '\n' :: stderr

/-- Outcome of executing the program on one test's input (an external
event, supplied as an oracle): normal completion with captured streams, or
exceeding the timeout. -/
inductive ExecOutcome where
  | completed (stdout stderr : List Char)
  | timedOut
deriving DecidableEq, Repr

/-- An exception escaping the orchestrator: `subprocess.TimeoutExpired`
from `run_test`, or the `TypeError` of `float(None)` from
`evaluate_variant`. -/
inductive RunError where
  | timeoutExpired
  | typeError
deriving DecidableEq, Repr

/-- `run_test` from the source: `subprocess.run(..., timeout=timeout_sec,
check=False)` returns the completed process, but raises `TimeoutExpired`
when the timeout is exceeded (`check=False` only suppresses exit-status
errors, not the timeout). -/
def run_test (outcome : ExecOutcome) : Except RunError (List Char × List Char) :=
  match outcome with
  | .completed stdout stderr => .ok (stdout, stderr)
  | .timedOut => .error .timeoutExpired

/-- One test case of a run: its spec, its resolved input text, and the
program's execution outcome on that input. -/
structure TestBundle where
  test : TestSpec
  input_text : List Char
  outcome : ExecOutcome

/-- The per-test loop of `main`, which counts failed tests and continues —
but has no `try`/`except`: any exception raised for one test aborts the
whole run (the remaining tests never execute), modelled by `Except.error`. -/
def main_loop (default_tol : ℚ) (sel_mode : Bool) : List TestBundle → Except RunError Nat
  | [] => .ok 0
  | b :: rest =>
    match run_test b.outcome with
    | .error e => .error e
    | .ok (stdout, stderr) =>
      match evaluate_test (output_text stdout stderr) b.input_text default_tol sel_mode b.test with
      | .error _ => .error .typeError
      | .ok (passed, _) =>
        match main_loop default_tol sel_mode rest with
        | .error e => .error e
        | .ok n => .ok (n + (if passed then 0 else 1))

-- ### Reference definition for the numeric-solution check (claim wording)

/-- The numeric-solution check as the specification words it, for comparison
with `check_solution_found`: indexing is 0-based exactly when key 0 was
extracted, expected position `i` maps to key `i` (0-based) or `i + 1`
(1-based), an absent key is fail-listed as not-found, and a mismatch is
fail-listed exactly when the absolute difference exceeds the tolerance. -/
def check_solution_spec (found : List (Nat × ℚ)) (expected : List ℚ) (tol : ℚ) : List Missing :=
  let zb := (dictLookup 0 found).isSome
  expected.enum.filterMap fun p =>
    let key := if zb then p.1 else p.1 + 1
    match dictLookup key found with
    | none => some (.solutionKeyNotFound key)
    | some a => if qabs (qsub a p.2) > tol then some (.solutionMismatch key p.2) else none

/-- A selector field that contributes no non-blank selector string:
absent, not a string, or a string that strips to nothing. -/
def selector_blank : Option JPrim → Bool
  | some (.str s) => (pyStrip s).isEmpty
  | _ => true

-- ### Helper lemmas

theorem normalize_text_eq_map (s : List Char) : normalize_text s = s.map normChar := by
  unfold normalize_text replaceChar
  rw [List.map_map, List.map_map]
  rfl

theorem normalize_text_append (a b : List Char) :
    normalize_text (a ++ b) = normalize_text a ++ normalize_text b := by
  simp [normalize_text_eq_map]

theorem dash_variant_char_norm {c d : Char} (h : dash_variant_char c d = true) :
    normChar c = normChar d := by
  simp only [dash_variant_char, Bool.or_eq_true, Bool.and_eq_true, decide_eq_true_eq] at h
  rcases h with h | ⟨hc, hd⟩
  · rw [h]
  · subst hc
    rcases hd with (hd | hd) | hd <;> subst hd <;> rfl

theorem dash_variant_norm :
    ∀ {a b : List Char}, dash_variant a b = true → normalize_text a = normalize_text b := by
  intro a
  induction a with
  | nil =>
    intro b h
    cases b with
    | nil => rfl
    | cons d ds => simp [dash_variant] at h
  | cons c cs ih =>
    intro b h
    cases b with
    | nil => simp [dash_variant] at h
    | cons d ds =>
      simp only [dash_variant, Bool.and_eq_true] at h
      have h1 := dash_variant_char_norm h.1
      have h2 := ih h.2
      simp only [normalize_text_eq_map, List.map_cons] at h2 ⊢
      rw [h1, h2]

theorem containsSub_append_right {b pat : List Char} (h : containsSub b pat = true) :
    ∀ a : List Char, containsSub (a ++ b) pat = true := by
  intro a
  induction a with
  | nil => simpa using h
  | cons c t ih =>
    simp only [List.cons_append, containsSub, Bool.or_eq_true]
    exact Or.inr ih
theorem qmul_eq_mul (a b : ℚ) : qmul a b = a * b := by
  rw [qmul, Rat.mul_def, Rat.normalize_eq_mkRat]

theorem qsub_eq_sub (a b : ℚ) : qsub a b = a - b := (Rat.sub_def' a b).symm

theorem qabs_eq_abs (a : ℚ) : qabs a = |a| := by
  rw [qabs]
  by_cases h : a.num < 0
  · have ha : a < 0 := by
      by_contra hge
      exact absurd (Rat.num_nonneg.mpr (le_of_not_lt hge)) (not_le_of_lt h)
    rw [if_pos h, abs_of_neg ha]
    rfl
  · have ha : (0 : ℚ) ≤ a := Rat.num_nonneg.mp (le_of_not_lt h)
    rw [if_neg h, abs_of_nonneg ha]

theorem dictLookup_insert_self (k : Nat) (v : ℚ) (d : List (Nat × ℚ)) :
    dictLookup k (dictInsert k v d) = some v := by
  induction d with
  | nil => simp [dictInsert, dictLookup]
  | cons p t ih =>
    obtain ⟨k1, v1⟩ := p
    by_cases h : k1 = k
    · simp [dictInsert, dictLookup, h]
    · simp [dictInsert, dictLookup, h, ih]

theorem dictLookup_insert_ne {k k1 : Nat} (h : k1 ≠ k) (v : ℚ) (d : List (Nat × ℚ)) :
    dictLookup k (dictInsert k1 v d) = dictLookup k d := by
  induction d with
  | nil => simp [dictInsert, dictLookup, h]
  | cons p t ih =>
    obtain ⟨k2, v2⟩ := p
    by_cases h2 : k2 = k1
    · subst h2
      simp [dictInsert, dictLookup, h]
    · by_cases h3 : k2 = k
      · simp only [dictInsert]
        rw [if_neg h2]
        simp [dictLookup, h3]
      · simp [dictInsert, dictLookup, h2, h3, ih]

theorem juxt_fold_preserves (l : List (Nat × ℚ)) :
    ∀ (d : List (Nat × ℚ)) (i : Nat) (v : ℚ), dictLookup i d = some v →
      dictLookup i
        (l.foldl (fun d p => if (dictLookup p.1 d).isSome then d else dictInsert p.1 p.2 d) d)
        = some v := by
  induction l with
  | nil => intro d i v h; simpa using h
  | cons p t ih =>
    intro d i v h
    rw [List.foldl_cons]
    by_cases hp : (dictLookup p.1 d).isSome
    · rw [if_pos hp]
      exact ih d i v h
    · rw [if_neg hp]
      apply ih
      by_cases hk : p.1 = i
      · subst hk
        rw [h] at hp
        simp at hp
      · rw [dictLookup_insert_ne hk]
        exact h

theorem solLoop_eq_enumFrom (found : List (Nat × ℚ)) (tol : ℚ) (zb : Bool) :
    ∀ (expected : List ℚ) (i : Nat),
      solLoop found tol zb i expected =
        (List.enumFrom i expected).filterMap (fun p =>
          let key := if zb then p.1 else p.1 + 1
          match dictLookup key found with
          | none => some (.solutionKeyNotFound key)
          | some a => if qabs (qsub a p.2) > tol then some (.solutionMismatch key p.2)
                      else none) := by
  intro expected
  induction expected with
  | nil => intro i; rfl
  | cons ev rest ih =>
    intro i
    rw [solLoop, List.enumFrom, List.filterMap_cons]
    cases hk : dictLookup (if zb then i else i + 1) found with
    | none => simp only [hk, ih (i + 1)]
    | some a =>
      by_cases hc : qabs (qsub a ev) > tol
      · simp only [hk, if_pos hc, ih (i + 1)]
      · simp only [hk, if_neg hc, ih (i + 1)]

theorem evaluate_variant_passed {out input : List Char} {v : Variant} {d : ℚ}
    {b : Bool} {m : List Missing}
    (h : evaluate_variant out v input d = .ok (b, m)) : b = m.isEmpty := by
  unfold evaluate_variant at h
  cases hs : v.expected_solution with
  | none =>
    rw [hs] at h
    obtain ⟨h1, h2⟩ := Prod.mk.inj (Except.ok.inj h)
    rw [← h1, ← h2]
  | some sol =>
    rw [hs] at h
    cases ht : variant_tol v input d with
    | error e => rw [ht] at h; exact absurd h (by simp)
    | ok tol =>
      rw [ht] at h
      obtain ⟨h1, h2⟩ := Prod.mk.inj (Except.ok.inj h)
      rw [← h1, ← h2]

theorem containsSub_norm_output {se pat : List Char} (so : List Char)
    (hse : se ≠ []) (h : containsSub (normalize_text se) pat = true) :
    containsSub (normalize_text (output_text so se)) pat = true := by
  have hne : se.isEmpty = false := by
    cases se with
    | nil => exact absurd rfl hse
    | cons c t => rfl
  rw [output_text, hne]
  simp only [Bool.false_eq_true, if_false]
  have : so ++ '\n' :: se = (so ++ ['\n']) ++ se := by simp
  rw [this, normalize_text_append]
  exact containsSub_append_right h _

-- ### C3: dynamic-tolerance mode

/-- C3 counterexample: with `use_input_tolerance` set, `tolerance_scale = 2`
and an input text containing no numeric literal, the tolerance is the
manifest default times the scale (here `1/500`), not the manifest default
`1/1000` as the claim states. -/
theorem c3_counterexample :
    variant_tol ⟨none, .absent, [], [], some [1], none, true, some 2⟩
      (chars "no numeric literal") (mkRat 1 1000) = .ok (mkRat 1 500) ∧
    (mkRat 1 500 : ℚ) ≠ mkRat 1 1000 := by
  constructor
  · rfl
  · decide

/-- C3 (amended): in dynamic-tolerance mode the tolerance is the last
numeric literal of the input times the base factor 3 times the scale
(default 1); when the input has no numeric literal, `parse_input_tolerance`
yields the manifest default, which is then still multiplied by the scale —
so the tolerance equals the default exactly when the scale is 1. -/
theorem c3_dynamic_tolerance :
    (∀ (input : List Char) (d v0 : ℚ), (findall_num input).getLast? = some v0 →
       parse_input_tolerance input d = qmul v0 3)
    ∧ (∀ (input : List Char) (d : ℚ), (findall_num input).getLast? = none →
       parse_input_tolerance input d = d)
    ∧ (∀ (v : Variant) (input : List Char) (d : ℚ), v.use_input_tolerance = true →
       variant_tol v input d =
         .ok (qmul (parse_input_tolerance input d) (truthy_scale v.tolerance_scale)))
    ∧ (∀ (t : TestSpec) (input : List Char) (d : ℚ), t.use_input_tolerance = true →
       direct_tol t input d =
         qmul (parse_input_tolerance input d) (t.tolerance_scale.getD 1)) := by
  refine ⟨?_, ?_, ?_, ?_⟩
  · intro input d v0 h
    rw [parse_input_tolerance, h]
  · intro input d h
    rw [parse_input_tolerance, h]
  · intro v input d h
    rw [variant_tol, if_pos h]
  · intro t input d h
    rw [direct_tol, if_pos h]

/-- Witness for `c3_dynamic_tolerance` at the specification's own example
(input ending in `0.01`, base factor 3, scale 2, giving 0.06). -/
theorem c3_dynamic_tolerance_witness :
    (findall_num (chars "2 2 0.01")).getLast? = some (mkRat 1 100) ∧
    parse_input_tolerance (chars "2 2 0.01") (mkRat 1 1000) = qmul (mkRat 1 100) 3 ∧
    variant_tol ⟨none, .absent, [], [], some [1], none, true, some 2⟩
        (chars "2 2 0.01") (mkRat 1 1000)
      = .ok (qmul (parse_input_tolerance (chars "2 2 0.01") (mkRat 1 1000))
              (truthy_scale (some 2))) ∧
    qmul (parse_input_tolerance (chars "2 2 0.01") (mkRat 1 1000)) (truthy_scale (some 2))
      = mkRat 3 50 :=
  ⟨by decide,
   c3_dynamic_tolerance.1 (chars "2 2 0.01") (mkRat 1 1000) (mkRat 1 100) (by decide),
   c3_dynamic_tolerance.2.2.1 ⟨none, .absent, [], [], some [1], none, true, some 2⟩
     (chars "2 2 0.01") (mkRat 1 1000) rfl,
   by decide⟩

-- ### C4: dash normalization

/-- C4 counterexample: the regex check does not normalize the pattern, so
the en-dash pattern `3–5` produces a missing entry against output `3-5`
although the canonical pattern `3-5` matches (the containment check, by
contrast, accepts the en-dash item). -/
theorem c4_counterexample :
    check_regex (chars "3-5") [chars "3–5"] = [Missing.regex (chars "3–5")] ∧
    check_regex (chars "3-5") [chars "3-5"] = [] ∧
    check_contains (chars "3-5") [chars "3–5"] = [] := by
  refine ⟨?_, ?_, ?_⟩ <;> decide

/-- C4 (amended): the containment check normalizes dashes on both sides, so
typographic dash variants in the output or in the expected item never
change its outcome; the regex check normalizes only the output, so dash
variants in the output never change its outcome — but a dash variant inside
the pattern itself is not normalized (see `c4_counterexample`). -/
theorem c4_dash_normalization :
    (∀ (out1 out2 : List Char) (items : List (List Char)), dash_variant out1 out2 = true →
       check_contains out1 items = check_contains out2 items)
    ∧ (∀ (out item1 item2 : List Char), dash_variant item1 item2 = true →
       (check_contains out [item2] = [] ↔ check_contains out [item1] = []))
    ∧ (∀ (out1 out2 : List Char) (pats : List (List Char)), dash_variant out1 out2 = true →
       check_regex out1 pats = check_regex out2 pats) := by
  refine ⟨?_, ?_, ?_⟩
  · intro out1 out2 items h
    unfold check_contains
    rw [dash_variant_norm h]
  · intro out item1 item2 h
    have hn := dash_variant_norm h
    simp [check_contains, hn]
  · intro out1 out2 pats h
    unfold check_regex
    rw [dash_variant_norm h]

/-- Witness for `c4_dash_normalization`: output `a–b` (en dash) passes the
same containment check as canonical `a-b`. -/
theorem c4_dash_normalization_witness :
    dash_variant (chars "a-b") (chars "a–b") = true ∧
    check_contains (chars "a-b") [chars "a-b"] = check_contains (chars "a–b") [chars "a-b"] :=
  ⟨by decide, c4_dash_normalization.1 (chars "a-b") (chars "a–b") [chars "a-b"] (by decide)⟩

-- ### C5: bracketed pass precedence

/-- C5: whenever the bracketed pass extracted a value for an index, the
final extraction maps that index to exactly that value — the juxtaposed
pass (here additionally assumed to yield the same index) never overwrites
it. -/
theorem c5_bracketed_precedence (stdout : List Char) (i : Nat) (v : ℚ)
    (hb : dictLookup i (bracketedDict stdout) = some v)
    (hj : i ∈ (juxt_matches stdout).map Prod.fst) :
    dictLookup i (extract_solution stdout) = some v := by
  unfold extract_solution
  exact juxt_fold_preserves _ _ _ _ hb

/-- Witness for `c5_bracketed_precedence` on `x[3] = 1.5 x3 = 2.5`: both
shapes yield index 3, and the extraction keeps the bracketed value 1.5. -/
theorem c5_bracketed_precedence_witness :
    dictLookup 3 (bracketedDict (chars "x[3] = 1.5 x3 = 2.5")) = some (mkRat 3 2) ∧
    3 ∈ (juxt_matches (chars "x[3] = 1.5 x3 = 2.5")).map Prod.fst ∧
    dictLookup 3 (extract_solution (chars "x[3] = 1.5 x3 = 2.5")) = some (mkRat 3 2) :=
  ⟨by decide, by decide,
   c5_bracketed_precedence (chars "x[3] = 1.5 x3 = 2.5") 3 (mkRat 3 2)
     (by decide) (by decide)⟩

-- ### C6: numeric-solution check

/-- C6: on every non-empty extraction result the solution check behaves as
specified (`check_solution_spec` is the claim's wording: 0-based iff key 0
present, position `i` maps to key `i` or `i + 1`, not-found for absent
keys, mismatch exactly when the absolute difference exceeds the tolerance);
moreover a difference equal to the tolerance passes (second conjunct, shown
as an equivalence with `≤`). -/
theorem c6_solution_check :
    (∀ (found : List (Nat × ℚ)) (expected : List ℚ) (tol : ℚ), found ≠ [] →
       check_solution_found found expected tol = check_solution_spec found expected tol)
    ∧ (∀ (a ev tol : ℚ),
       check_solution_found [(0, a)] [ev] tol = [] ↔ qabs (qsub a ev) ≤ tol) := by
  constructor
  · intro found expected tol h
    rw [check_solution_found, if_neg h, check_solution_spec]
    exact solLoop_eq_enumFrom found tol _ expected 0
  · intro a ev tol
    rw [check_solution_found]
    simp only [ne_eq, reduceCtorEq, if_false, solLoop, dictLookup]
    by_cases hc : qabs (qsub a ev) > tol
    · simp [hc, le_of_lt, not_le_of_lt]
    · simp [hc, le_of_not_lt hc]

/-- Witness for `c6_solution_check` at the specification's tolerance
example: extraction `x[0] = 2.0009` against expected `2` (difference
`0.0009`). -/
theorem c6_solution_check_witness :
    ([((0 : Nat), mkRat 20009 10000)] ≠ ([] : List (Nat × ℚ))) ∧
    check_solution_found [(0, mkRat 20009 10000)] [2] (mkRat 1 1000)
      = check_solution_spec [(0, mkRat 20009 10000)] [2] (mkRat 1 1000) ∧
    (check_solution_found [(0, mkRat 20009 10000)] [2] (mkRat 1 1000) = [] ↔
      qabs (qsub (mkRat 20009 10000) 2) ≤ mkRat 1 1000) :=
  ⟨by decide,
   c6_solution_check.1 [(0, mkRat 20009 10000)] [2] (mkRat 1 1000) (by decide),
   c6_solution_check.2 (mkRat 20009 10000) 2 (mkRat 1 1000)⟩

-- ### C7: empty extraction

/-- C7: when neither numeric shape matches anywhere in the output, the
extraction is the empty mapping and the solution check returns exactly the
single not-found marker, with no per-index entries. -/
theorem c7_solution_not_found (stdout : List Char) (expected : List ℚ) (tol : ℚ)
    (hb : bracketed_matches stdout = []) (hj : juxt_matches stdout = []) :
    extract_solution stdout = [] ∧
    check_solution stdout expected tol = [Missing.solutionNotFound] := by
  have he : extract_solution stdout = [] := by
    unfold extract_solution bracketedDict
    rw [hb, hj]
    rfl
  refine ⟨he, ?_⟩
  unfold check_solution
  rw [he]
  rfl

/-- Witness for `c7_solution_not_found` on an output with no numeric
assignment shape. -/
theorem c7_solution_not_found_witness :
    bracketed_matches (chars "hello world") = [] ∧
    juxt_matches (chars "hello world") = [] ∧
    extract_solution (chars "hello world") = [] ∧
    check_solution (chars "hello world") [3, 4] (mkRat 1 100) = [Missing.solutionNotFound] :=
  ⟨by decide, by decide,
   (c7_solution_not_found (chars "hello world") [3, 4] (mkRat 1 100) (by decide) (by decide)).1,
   (c7_solution_not_found (chars "hello world") [3, 4] (mkRat 1 100) (by decide) (by decide)).2⟩

-- ### Helper lemmas for the variant loop and selectors

theorem variant_loop_first_pass {out input : List Char} {d : ℚ} {v : Variant}
    {m : List Missing} (rest : List Variant)
    (hv : evaluate_variant out v input d = .ok (true, m)) :
    variant_loop out input d (v :: rest) = .ok (true, m) := by
  cases rest <;> simp [variant_loop, hv]

theorem variant_loop_skip_fail {out input : List Char} {d : ℚ} {u : Variant}
    {mu : List Missing} {rest : List Variant}
    (hu : evaluate_variant out u input d = .ok (false, mu)) (hne : rest ≠ []) :
    variant_loop out input d (u :: rest) = variant_loop out input d rest := by
  cases rest with
  | nil => exact absurd rfl hne
  | cons w ws => simp [variant_loop, hu]

theorem variant_loop_single_fail {out input : List Char} {d : ℚ} {v : Variant}
    {mv : List Missing}
    (hv : evaluate_variant out v input d = .ok (false, mv)) :
    variant_loop out input d [v] = evaluate_variant out v input d := by
  simp [variant_loop, hv]

theorem dropWhile_eq_self_of {p : Char → Bool} :
    ∀ {s : List Char}, (∀ c ∈ s, p c = false) → s.dropWhile p = s := by
  intro s h
  cases s with
  | nil => rfl
  | cons c t =>
    rw [List.dropWhile_cons, h c (List.mem_cons_self c t)]
    simp

theorem pyStrip_eq_self_of {s : List Char} (h : ∀ c ∈ s, pyIsSpace c = false) :
    pyStrip s = s := by
  rw [pyStrip, dropWhile_eq_self_of h]
  rw [dropWhile_eq_self_of (fun c hc => h c (List.mem_reverse.mp hc))]
  exact List.reverse_reverse s

theorem digit_char_not_space : ∀ d : Fin 10, pyIsSpace (Char.ofNat (48 + d.val)) = false := by
  decide

theorem natCharsAux_no_space :
    ∀ (fuel n : Nat) (acc : List Char), (∀ c ∈ acc, pyIsSpace c = false) →
      ∀ c ∈ natCharsAux fuel n acc, pyIsSpace c = false := by
  intro fuel
  induction fuel with
  | zero =>
    intro n acc hacc c hc
    exact hacc c hc
  | succ f ih =>
    intro n acc hacc c hc
    rw [natCharsAux] at hc
    have hch : pyIsSpace (Char.ofNat (48 + n % 10)) = false :=
      digit_char_not_space ⟨n % 10, Nat.mod_lt n (by decide)⟩
    have hacc2 : ∀ c ∈ Char.ofNat (48 + n % 10) :: acc, pyIsSpace c = false := by
      intro c2 hc2
      rcases List.mem_cons.mp hc2 with h | h
      · rw [h]; exact hch
      · exact hacc c2 h
    by_cases hn : n < 10
    · rw [if_pos hn] at hc
      exact hacc2 c hc
    · rw [if_neg hn] at hc
      exact ih (n / 10) _ hacc2 c hc

theorem intChars_no_space (i : Int) : ∀ c ∈ intChars i, pyIsSpace c = false := by
  cases i with
  | ofNat n =>
    exact natCharsAux_no_space (n + 1) n [] (by intro c hc; exact absurd hc (List.not_mem_nil c))
  | negSucc n =>
    intro c hc
    rcases List.mem_cons.mp hc with h | h
    · rw [h]; rfl
    · exact natCharsAux_no_space (n + 2) (n + 1) []
        (by intro c2 hc2; exact absurd hc2 (List.not_mem_nil c2)) c h

theorem selector_fallback (v : Variant) (h : selector_blank v.selector = true) :
    get_variant_selector v = selector_from_out_contains v.out_contains_raw := by
  unfold get_variant_selector
  cases hsel : v.selector with
  | none => rfl
  | some j =>
    cases j with
    | str s =>
      have h2 : (pyStrip s).isEmpty = true := by
        rw [hsel] at h
        exact h
      exact if_pos h2
    | num n => rfl
    | null => rfl

-- ### C8: variant fallback evaluation

/-- C8: without selection-by-output the variants run in declared order —
after any prefix of failing variants, the first passing variant stops the
loop with a pass and an empty fail-list, whatever comes after it; when
every variant fails, the result is the last variant's evaluation; and a
test case with a non-empty variants list is decided by the variant loop
alone (its direct expectations are not consulted). -/
theorem c8_variant_fallback :
    (∀ (out input : List Char) (d : ℚ) (vs1 : List Variant) (v : Variant)
       (vs2 : List Variant) (m : List Missing),
       (∀ u ∈ vs1, ∃ mu, evaluate_variant out u input d = .ok (false, mu)) →
       evaluate_variant out v input d = .ok (true, m) →
       variant_loop out input d (vs1 ++ v :: vs2) = .ok (true, []))
    ∧ (∀ (out input : List Char) (d : ℚ) (vs : List Variant) (v : Variant),
       (∀ u ∈ vs ++ [v], ∃ mu, evaluate_variant out u input d = .ok (false, mu)) →
       variant_loop out input d (vs ++ [v]) = evaluate_variant out v input d)
    ∧ (∀ (out input : List Char) (d : ℚ) (t : TestSpec), t.variants ≠ [] →
       evaluate_test out input d false t = variant_loop out input d t.variants) := by
  refine ⟨?_, ?_, ?_⟩
  · intro out input d vs1
    induction vs1 with
    | nil =>
      intro v vs2 m hall hv
      have hm : m = [] := by
        have hp := evaluate_variant_passed hv
        cases m with
        | nil => rfl
        | cons a t => simp at hp
      subst hm
      rw [List.nil_append]
      exact variant_loop_first_pass vs2 hv
    | cons u t ih =>
      intro v vs2 m hall hv
      obtain ⟨mu, hu⟩ := hall u (List.mem_cons_self u t)
      rw [List.cons_append, variant_loop_skip_fail hu (by simp)]
      exact ih v vs2 m (fun w hw => hall w (List.mem_cons_of_mem u hw)) hv
  · intro out input d vs
    induction vs with
    | nil =>
      intro v hall
      obtain ⟨mv, hv⟩ := hall v (by simp)
      rw [List.nil_append]
      exact variant_loop_single_fail hv
    | cons u t ih =>
      intro v hall
      obtain ⟨mu, hu⟩ := hall u (by simp)
      rw [List.cons_append, variant_loop_skip_fail hu (by simp)]
      exact ih v (fun w hw => hall w (by rw [List.cons_append]; exact List.mem_cons_of_mem u hw))
  · intro out input d t ht
    cases hv : t.variants with
    | nil => exact absurd hv ht
    | cons v vs =>
      rw [evaluate_test, hv]
      simp only [run_variants, if_neg (by simp : ¬False)]
      rfl

/-- Witness for `c8_variant_fallback`: a failing variant, then a passing
one, then a variant that would raise (missing fixed tolerance) — the loop
passes without reaching the third variant. -/
theorem c8_variant_fallback_witness :
    (∀ u ∈ [(⟨none, .absent, [chars "zz"], [], none, none, false, none⟩ : Variant)],
       ∃ mu, evaluate_variant (chars "ok") u [] 1 = .ok (false, mu)) ∧
    evaluate_variant (chars "ok") ⟨none, .absent, [], [], none, none, false, none⟩ [] 1
      = .ok (true, []) ∧
    variant_loop (chars "ok") [] 1
        ([⟨none, .absent, [chars "zz"], [], none, none, false, none⟩] ++
          (⟨none, .absent, [], [], none, none, false, none⟩ : Variant) ::
          [⟨none, .absent, [], [], some [1], none, false, none⟩])
      = .ok (true, []) := by
  refine ⟨?_, rfl, ?_⟩
  · intro u hu
    rcases List.mem_singleton.mp hu with rfl
    exact ⟨[Missing.contains (chars "zz")], rfl⟩
  · exact c8_variant_fallback.1 (chars "ok") [] 1
      [⟨none, .absent, [chars "zz"], [], none, none, false, none⟩]
      ⟨none, .absent, [], [], none, none, false, none⟩
      [⟨none, .absent, [], [], some [1], none, false, none⟩] []
      (by
        intro u hu
        rcases List.mem_singleton.mp hu with rfl
        exact ⟨[Missing.contains (chars "zz")], rfl⟩)
      rfl

-- ### C9: checks run against stdout plus stderr

/-- C9: the text handed to every expectation check is the standard output,
concatenated with a newline and the standard error whenever the standard
error is non-empty (and the standard output alone otherwise); consequently
a containment item and a literal regex pattern that occur only on standard
error are counted as met by the full per-test evaluation. -/
theorem c9_checks_on_combined_output :
    (∀ (so se : List Char), se ≠ [] → output_text so se = so ++ '\n' :: se)
    ∧ (∀ so : List Char, output_text so [] = so)
    ∧ (∀ (so se input : List Char) (d : ℚ) (sel : Bool) (item pat : List Char),
       se ≠ [] →
       containsSub (normalize_text se) (normalize_text item) = true →
       containsSub (normalize_text se) pat = true →
       evaluate_test (output_text so se) input d sel ⟨[item], [pat], none, none, false, none, []⟩
         = .ok (true, [])) := by
  refine ⟨?_, ?_, ?_⟩
  · intro so se h
    have hne : se.isEmpty = false := by
      cases se with
      | nil => exact absurd rfl h
      | cons c t => rfl
    rw [output_text, hne]
    simp
  · intro so
    rfl
  · intro so se input d sel item pat hse hi hp
    have h1 : containsSub (normalize_text (output_text so se)) (normalize_text item) = true :=
      containsSub_norm_output so hse hi
    have h2 : containsSub (normalize_text (output_text so se)) pat = true :=
      containsSub_norm_output so hse hp
    simp [evaluate_test, check_contains, check_regex, re_search_lit, h1, h2]

/-- Witness for `c9_checks_on_combined_output`: item `A` and pattern `err`
occur only on standard error, and the test still passes. -/
theorem c9_checks_on_combined_output_witness :
    chars "err A" ≠ [] ∧
    containsSub (normalize_text (chars "err A")) (normalize_text (chars "A")) = true ∧
    containsSub (normalize_text (chars "err A")) (chars "err") = true ∧
    evaluate_test (output_text (chars "out") (chars "err A")) [] 1 false
        ⟨[chars "A"], [chars "err"], none, none, false, none, []⟩
      = .ok (true, []) :=
  ⟨by decide, by decide, by decide,
   c9_checks_on_combined_output.2.2 (chars "out") (chars "err A") [] 1 false
     (chars "A") (chars "err") (by decide) (by decide) (by decide)⟩

-- ### C10: variant selectors

/-- C10: a variant with no non-blank selector string takes its selector
from the first entry of its `out_contains` list, stripped (for non-string
entries the rendering `str(first)` carries no surrounding whitespace, so
the stripped form is the same); with neither a selector nor any
`out_contains` entry the selector is empty, and an empty selector is never
chosen by the first-line selection; when no selector matches the first
non-blank output line, selection yields nothing and the engine falls back
to the ordinary variant loop over all variants in declared order. -/
theorem c10_variant_selector :
    (∀ (v : Variant) (first : JPrim) (rest : List JPrim),
       selector_blank v.selector = true →
       v.out_contains_raw = .ofList (first :: rest) →
       get_variant_selector v = pyStrip (pyStr first))
    ∧ (∀ v : Variant, selector_blank v.selector = true →
       (v.out_contains_raw = .absent ∨ v.out_contains_raw = .ofList []) →
       get_variant_selector v = [])
    ∧ (∀ (variants : List Variant) (line : List Char) (u : Variant),
       select_variant variants line = some u → get_variant_selector u ≠ [])
    ∧ (∀ (out input : List Char) (d : ℚ) (variants : List Variant),
       select_variant variants (extract_first_line out) = none →
       run_variants out input d true variants = variant_loop out input d variants) := by
  refine ⟨?_, ?_, ?_, ?_⟩
  · intro v first rest h hraw
    rw [selector_fallback v h, hraw]
    cases first with
    | str s => rfl
    | num n =>
      exact (pyStrip_eq_self_of (intChars_no_space n)).symm
    | null => rfl
  · intro v h hraw
    rw [selector_fallback v h]
    rcases hraw with hraw | hraw <;> rw [hraw] <;> rfl
  · intro variants line u hsel hempty
    have hp := List.find?_some hsel
    simp only [Bool.and_eq_true] at hp
    have h1 := hp.1
    rw [hempty] at h1
    simp at h1
  · intro out input d variants h
    rw [run_variants]
    simp only [if_true]
    rw [h]

/-- Witness for `c10_variant_selector`: blank declared selector, first
`out_contains` entry `" A "`, selector becomes the stripped `A`. -/
theorem c10_variant_selector_witness :
    selector_blank (some (.str (chars "  "))) = true ∧
    get_variant_selector
        ⟨some (.str (chars "  ")), .ofList [.str (chars " A "), .num 3],
          [], [], none, none, false, none⟩
      = pyStrip (pyStr (.str (chars " A "))) :=
  ⟨by decide,
   c10_variant_selector.1
     ⟨some (.str (chars "  ")), .ofList [.str (chars " A "), .num 3],
       [], [], none, none, false, none⟩
     (.str (chars " A ")) [.num 3] (by decide) rfl⟩

-- ### C1: timeout handling (code bug)

/-- C1 (against the claim, a code bug): `main` never catches the
`TimeoutExpired` raised by `run_test`, so a test whose execution exceeds
the timeout aborts the whole run — whatever tests remain are never
evaluated and no failure tally is produced, where the claim (and the
specification) require the test to be recorded as failed and the run to
continue. -/
theorem c1_timeout_aborts_run (d : ℚ) (sel : Bool) (t : TestSpec) (input : List Char)
    (rest : List TestBundle) :
    main_loop d sel ({ test := t, input_text := input, outcome := .timedOut } :: rest)
      = .error .timeoutExpired := rfl

-- ### C2: fixed-mode tolerance fallback (code bug)

/-- C2 (against the claim, a code bug): `main` always materializes the
`solution_tolerance` key when it builds the dict for `evaluate_variant`
(Python `None` when the variant declares none), so the declared-key default
of `variant.get("solution_tolerance", default_tol)` never applies and
`float(None)` raises `TypeError`: in fixed mode a variant with an expected
solution but no declared tolerance crashes the run instead of using the
manifest default (first and last conjuncts); a variant with a declared
tolerance, and the direct (no-variants) branch with or without a declared
tolerance, behave as the claim states (middle conjuncts). -/
theorem c2_variant_tolerance_crash :
    evaluate_variant (chars "x[1] = 5.0")
        ⟨none, .absent, [], [], some [5], none, false, none⟩ [] (mkRat 1 1000)
      = .error () ∧
    evaluate_variant (chars "x[1] = 5.0")
        ⟨none, .absent, [], [], some [5], some (mkRat 1 100), false, none⟩ [] (mkRat 1 1000)
      = .ok (true, []) ∧
    direct_tol ⟨[], [], some [5], none, false, none, []⟩ [] (mkRat 1 1000) = mkRat 1 1000 ∧
    direct_tol ⟨[], [], some [5], some (mkRat 1 100), false, none, []⟩ [] (mkRat 1 1000)
      = mkRat 1 100 ∧
    main_loop (mkRat 1 1000) false
        [{ test := ⟨[], [], none, none, false, none,
             [⟨none, .absent, [], [], some [5], none, false, none⟩]⟩,
           input_text := [],
           outcome := .completed (chars "x[1] = 5.0") [] }]
      = .error .typeError :=
  ⟨rfl, rfl, rfl, rfl, rfl⟩
